import Mathlib

/-!
Verification of the ebeam-tools calibration core (calibrator.cpp / calibrator.hpp)
against its natural-language specification.

The C++ code is shallowly embedded: machine integers are modelled as `Int`
with explicit reduction modulo `2^64` (resp. `2^32`) wherever the C code's
`long long` (resp. `int`) arithmetic can wrap, C integer division is
`Int.tdiv` (truncation toward zero), real-valued GSL computations are
modelled over `ℚ`, and the file-system and X11 side effects are made
explicit as state passed in and out.
-/

namespace Ebeam

/-- SUCCESS return value of the C++ members (calibrator.hpp line 27). -/
def SUCCESS : Bool := true

/-- FAILURE return value of the C++ members (calibrator.hpp line 30). -/
def FAILURE : Bool := false

/-- Default misclick threshold THR_DOUBLECLICK (calibrator.hpp line 36). -/
def THR_DOUBLECLICK : Int := 16

/-- Default precision PRECISION (calibrator.hpp line 52). -/
def PRECISION : Nat := 12

/-- Number of calibration points NUM_POINTS (calibrator.hpp line 60). -/
def NUM_POINTS : Nat := 4

/-- Reduction of an integer into the signed 64-bit range, modelling the
two's-complement wrap-around of C `long long` arithmetic on the target. -/
def wrap64 (z : Int) : Int := Int.emod (z + 2 ^ 63) (2 ^ 64) - 2 ^ 63

/-- Reduction of an integer into the signed 32-bit range, modelling the
two's-complement conversion performed by a C cast to `int`. -/
def wrap32 (z : Int) : Int := Int.emod (z + 2 ^ 31) (2 ^ 32) - 2 ^ 31

/-- One device/screen correspondence, struct Tuple (calibrator.hpp lines 64-69). -/
structure Tuple where
  dev_X : Int
  dev_Y : Int
  scr_x : Int
  scr_y : Int
deriving DecidableEq, Repr, Inhabited

/-- The quantized homography matrix, the `long long H[9]` member of class
Calibrator (calibrator.hpp line 196), as nine named coefficients in the
array order `h1..h9`. -/
structure HMatrix where
  h1 : Int
  h2 : Int
  h3 : Int
  h4 : Int
  h5 : Int
  h6 : Int
  h7 : Int
  h8 : Int
  h9 : Int
deriving DecidableEq, Repr, Inhabited

/-- The homogeneous denominator `div = H[6]*X + H[7]*Y + H[8]` computed by
`Calibrator::test_H` (calibrator.cpp line 1287) in `long long` arithmetic.
Consecutive wrapping additions and multiplications compose to a single
reduction of the exact integer expression modulo `2^64`. -/
def testDenom (H : HMatrix) (X Y : Int) : Int :=
  wrap64 (H.h7 * X + H.h8 * Y + H.h9)

/-- The replayed x screen coordinate `(int) ((2*(H[0]*X + H[1]*Y + H[2]) + div)/(2*div))`
of `Calibrator::test_H` (calibrator.cpp line 1294): `long long` arithmetic,
C truncating division, and a final cast to 32-bit `int`. -/
def testX (H : HMatrix) (X Y : Int) : Int :=
  let div := testDenom H X Y
  wrap32 (Int.tdiv (wrap64 (2 * (H.h1 * X + H.h2 * Y + H.h3) + div)) (wrap64 (2 * div)))

/-- The replayed y screen coordinate `(int) ((2*(H[3]*X + H[4]*Y + H[5]) + div)/(2*div))`
of `Calibrator::test_H` (calibrator.cpp line 1295). -/
def testY (H : HMatrix) (X Y : Int) : Int :=
  let div := testDenom H X Y
  wrap32 (Int.tdiv (wrap64 (2 * (H.h4 * X + H.h5 * Y + H.h6) + div)) (wrap64 (2 * div)))

/-- `Calibrator::test_H` (calibrator.cpp lines 1259-1309): for each stored
tuple in order, fail if the denominator is zero, fail if the replayed
(x, y) differ from the stored screen coordinates, succeed once every
tuple has been replayed. -/
def test_H (H : HMatrix) : List Tuple → Bool
  | [] => SUCCESS
  | t :: ts =>
    if testDenom H t.dev_X t.dev_Y = 0 then FAILURE
    else if testX H t.dev_X t.dev_Y ≠ t.scr_x ∨ testY H t.dev_X t.dev_Y ≠ t.scr_y then FAILURE
    else test_H H ts

/-- Rendering of the replay-validation claim exactly as the spec words it
(spec section 4.3): the comparison uses the 64-bit quotients
`(2*(h1*X + h2*Y + h3) + denom) / (2*denom)` themselves, with no final
truncation to a 32-bit `int`.  Kept solely to be compared against
`test_H`, which is translated from the source. -/
def spec_test_H (H : HMatrix) (ts : List Tuple) : Prop :=
  ∀ t ∈ ts,
    testDenom H t.dev_X t.dev_Y ≠ 0 ∧
    Int.tdiv (wrap64 (2 * (H.h1 * t.dev_X + H.h2 * t.dev_Y + H.h3) + testDenom H t.dev_X t.dev_Y))
        (wrap64 (2 * testDenom H t.dev_X t.dev_Y)) = t.scr_x ∧
    Int.tdiv (wrap64 (2 * (H.h4 * t.dev_X + H.h5 * t.dev_Y + H.h6) + testDenom H t.dev_X t.dev_Y))
        (wrap64 (2 * testDenom H t.dev_X t.dev_Y)) = t.scr_y

instance (H : HMatrix) (ts : List Tuple) : Decidable (spec_test_H H ts) := by
  unfold spec_test_H; infer_instance

/-- Truncation toward zero of a rational, modelling a C cast of a
nonnegative-or-negative `long double` value to `long long`. -/
def qtrunc (x : ℚ) : Int := if 0 ≤ x then ⌊x⌋ else ⌈x⌉

/-- The fixed-point quantization inlined in `Calibrator::find_H`
(calibrator.cpp lines 1233-1240): a solved coefficient `v` is scaled by
`10^precision`, shifted by `+0.5` when `v >= 0` and by `-0.5` otherwise,
and truncated by the C cast to `long long`.  The GSL `double` coefficient
and the `long double` scale are modelled as exact rationals. -/
def quantize (v : ℚ) (P : Nat) : Int :=
  if 0 ≤ v then qtrunc (v * 10 ^ P + 1 / 2) else qtrunc (v * 10 ^ P - 1 / 2)

/-- Row `2k` of the 8x8 system filled by `Calibrator::find_H`
(calibrator.cpp lines 1185-1192): `[X, Y, 1, 0, 0, 0, -(X*x), -(Y*x)]`. -/
def evenRowQ (t : Tuple) : Fin 8 → ℚ :=
  ![(t.dev_X : ℚ), (t.dev_Y : ℚ), 1, 0, 0, 0,
    -((t.dev_X : ℚ) * (t.scr_x : ℚ)), -((t.dev_Y : ℚ) * (t.scr_x : ℚ))]

/-- Row `2k+1` of the 8x8 system filled by `Calibrator::find_H`
(calibrator.cpp lines 1194-1201): `[0, 0, 0, X, Y, 1, -(X*y), -(Y*y)]`. -/
def oddRowQ (t : Tuple) : Fin 8 → ℚ :=
  ![0, 0, 0, (t.dev_X : ℚ), (t.dev_Y : ℚ), 1,
    -((t.dev_X : ℚ) * (t.scr_y : ℚ)), -((t.dev_Y : ℚ) * (t.scr_y : ℚ))]

/-- The matrix `A` of the linear system `A h = b` built by
`Calibrator::find_H` from the four stored tuples: the loop over
`p = 0..3` fills rows `2p` and `2p+1`, here written out. -/
def buildA (ts : List Tuple) : Matrix (Fin 8) (Fin 8) ℚ :=
  Matrix.of fun i =>
    match i with
    | ⟨0, _⟩ => evenRowQ (ts.getD 0 default)
    | ⟨1, _⟩ => oddRowQ (ts.getD 0 default)
    | ⟨2, _⟩ => evenRowQ (ts.getD 1 default)
    | ⟨3, _⟩ => oddRowQ (ts.getD 1 default)
    | ⟨4, _⟩ => evenRowQ (ts.getD 2 default)
    | ⟨5, _⟩ => oddRowQ (ts.getD 2 default)
    | ⟨6, _⟩ => evenRowQ (ts.getD 3 default)
    | ⟨7, _⟩ => oddRowQ (ts.getD 3 default)

/-- The right-hand side `b = (x1, y1, .., x4, y4)` built by
`Calibrator::find_H` (calibrator.cpp lines 1204-1209). -/
def buildB (ts : List Tuple) : Fin 8 → ℚ :=
  fun i =>
    match i with
    | ⟨0, _⟩ => ((ts.getD 0 default).scr_x : ℚ)
    | ⟨1, _⟩ => ((ts.getD 0 default).scr_y : ℚ)
    | ⟨2, _⟩ => ((ts.getD 1 default).scr_x : ℚ)
    | ⟨3, _⟩ => ((ts.getD 1 default).scr_y : ℚ)
    | ⟨4, _⟩ => ((ts.getD 2 default).scr_x : ℚ)
    | ⟨5, _⟩ => ((ts.getD 2 default).scr_y : ℚ)
    | ⟨6, _⟩ => ((ts.getD 3 default).scr_x : ℚ)
    | ⟨7, _⟩ => ((ts.getD 3 default).scr_y : ℚ)

/-- Modelled from the spec: the LU decomposition and solve are performed by
the external GSL library (`gsl_linalg_LU_decomp` / `gsl_linalg_LU_solve`,
calibrator.cpp lines 1221-1230), whose code is not part of this
repository.  Per GSL's documented contract the decomposition always
completes, and the solve reports a "matrix is singular" error exactly when
a pivot of the decomposition is zero, i.e. when the matrix is singular;
otherwise it returns the unique solution of `A x = b`, here written with
the adjugate.  Floating-point arithmetic is idealized as exact rational
arithmetic. -/
def gslLUSolve (A : Matrix (Fin 8) (Fin 8) ℚ) (b : Fin 8 → ℚ) : Option (Fin 8 → ℚ) :=
  if A.det = 0 then none else some ((A.det)⁻¹ • (A.adjugate.mulVec b))

/-- `Calibrator::find_H` (calibrator.cpp lines 1162-1257): build the 8x8
system from the tuples, solve it through GSL, and on success quantize the
eight solved coefficients with the session's precision and assign
`H[8] = 10^precision` (the `pow(10.0, precision)` value, exact for the
supported precisions).  Any solver failure is returned as `none` and
leaves `H` untouched. -/
def find_H (precision : Nat) (ts : List Tuple) : Option HMatrix :=
  match gslLUSolve (buildA ts) (buildB ts) with
  | none => none
  | some h =>
    some ⟨quantize (h 0) precision, quantize (h 1) precision, quantize (h 2) precision,
          quantize (h 3) precision, quantize (h 4) precision, quantize (h 5) precision,
          quantize (h 6) precision, quantize (h 7) precision, (10 : Int) ^ precision⟩

/-- The Calibrator fields the calibration-math and session-state engine
uses (calibrator.hpp lines 169-211); the X11 handles and file paths are
kept external. -/
structure Calib where
  precision : Nat
  threshold_doubleclick : Int
  tuples : List Tuple
  H : HMatrix
  zoned : Bool
  min_x : Int
  min_y : Int
  max_x : Int
  max_y : Int
  screen_width : Int
  screen_height : Int
deriving DecidableEq, Repr

/-- The steps `Calibrator::finish` runs after the point-count check, in
source order (calibrator.cpp lines 656-674). -/
inductive Step where
  | findH
  | testH
  | setEbeam
  | syncEvdev
deriving DecidableEq, Repr

/-- Outcomes of the two external transfers performed at the end of
`Calibrator::finish`: writing the sysfs files (`set_ebeam_calibration`)
and pushing the X11 properties (`sync_evdev_calibration`).  Both touch
the outside world only, so they are modelled as environment outcomes. -/
structure FinishEnv where
  set_ebeam_ok : Bool
  sync_ok : Bool
deriving DecidableEq, Repr

/-- `Calibrator::finish` (calibrator.cpp lines 649-677): fail at once if
fewer or more than `NUM_POINTS` tuples are stored; otherwise run
`find_H`, `test_H`, `set_ebeam_calibration` and `sync_evdev_calibration`
in order, stopping at the first failure.  The returned list records which
steps were reached. -/
def finish (env : FinishEnv) (c : Calib) : Bool × Calib × List Step :=
  if c.tuples.length ≠ NUM_POINTS then (FAILURE, c, [])
  else
    match find_H c.precision c.tuples with
    | none => (FAILURE, c, [Step.findH])
    | some M =>
      let c' := { c with H := M }
      if test_H M c'.tuples = FAILURE then (FAILURE, c', [Step.findH, Step.testH])
      else if env.set_ebeam_ok = FAILURE then
        (FAILURE, c', [Step.findH, Step.testH, Step.setEbeam])
      else if env.sync_ok = FAILURE then
        (FAILURE, c', [Step.findH, Step.testH, Step.setEbeam, Step.syncEvdev])
      else (SUCCESS, c', [Step.findH, Step.testH, Step.setEbeam, Step.syncEvdev])

/-- The double-click detection loop of `Calibrator::add_click`
(calibrator.cpp lines 621-634): the new device point is compared against
every stored tuple, per axis, against the threshold. -/
def isDoubleClick (thr X Y : Int) (ts : List Tuple) : Bool :=
  ts.any fun t => decide (|X - t.dev_X| ≤ thr ∧ |Y - t.dev_Y| ≤ thr)

/-- `Calibrator::add_click` (calibrator.cpp lines 616-647): when a positive
threshold is configured and at least one tuple is stored, a click within
the threshold of any stored click is rejected and nothing changes;
otherwise the tuple is stored and the count grows by one. -/
def add_click (c : Calib) (X Y x y : Int) : Bool × Calib :=
  if c.threshold_doubleclick > 0 ∧ c.tuples.length > 0 then
    if isDoubleClick c.threshold_doubleclick X Y c.tuples then (FAILURE, c)
    else (SUCCESS, { c with tuples := c.tuples ++ [⟨X, Y, x, y⟩] })
  else (SUCCESS, { c with tuples := c.tuples ++ [⟨X, Y, x, y⟩] })

/-- The four stored device points lie on one line: some nontrivial affine
form `a*X + b*Y + c` vanishes on all of them. -/
def CollinearDev (ts : List Tuple) : Prop :=
  ∃ a b c : ℚ, (a ≠ 0 ∨ b ≠ 0) ∧ ∀ t ∈ ts, a * t.dev_X + b * t.dev_Y + c = 0

/-- The version tag written and checked by the persistence code: the
package VERSION, `0.9` for this release. -/
def VERSION : String := "0.9"

/-- The decimal digit character for `d`, as produced by `fprintf`. -/
def digitChar (d : Nat) : Char := Char.ofNat (48 + d)

/-- The value of a decimal digit character, as consumed by `fscanf`. -/
def charVal (ch : Char) : Nat := ch.toNat - 48

/-- Whether a character is a decimal digit. -/
def isDigitChar (ch : Char) : Bool := decide (48 ≤ ch.toNat) && decide (ch.toNat ≤ 57)

/-- Little-endian base-10 digits of a natural number, with explicit fuel
so that the recursion is structural. -/
def natDigitsAux : Nat → Nat → List Nat
  | 0, _ => []
  | _ + 1, 0 => []
  | fuel + 1, n + 1 => ((n + 1) % 10) :: natDigitsAux fuel ((n + 1) / 10)

/-- Little-endian base-10 digits of a natural number. -/
def natDigits (n : Nat) : List Nat := natDigitsAux n n

/-- The decimal text of a natural number, modelling `fprintf` with a
`%d`/`%lld` conversion of a nonnegative value. -/
def natStr (n : Nat) : List Char :=
  if n = 0 then ['0'] else (natDigits n).reverse.map digitChar

/-- The decimal text of an integer, modelling `fprintf` with `%d`/`%lld`. -/
def intStr (z : Int) : String :=
  if z < 0 then String.mk ('-' :: natStr z.natAbs) else String.mk (natStr z.natAbs)

/-- Parse an unsigned run of decimal digits, modelling `fscanf` consuming
a `%d`/`%lld` token: at least one digit, all characters digits. -/
def parseNat (cs : List Char) : Option Nat :=
  if cs ≠ [] ∧ cs.all isDigitChar then
    some (Nat.ofDigits 10 ((cs.map charVal).reverse))
  else none

/-- Parse one decimal integer token, modelling `fscanf` with `%d`/`%lld`:
an optional leading minus sign followed by digits. -/
def parseInt (s : String) : Option Int :=
  match s.data with
  | [] => none
  | ch :: cs =>
    if ch = '-' then (parseNat cs).map fun n => -(n : Int)
    else (parseNat (ch :: cs)).map fun n => (n : Int)

/-- The 14 lines written by the save branch of `Calibrator::do_calib_io`
(calibrator.cpp lines 1045-1053): the version tag, then `min_x`, `max_x`,
`min_y`, `max_y`, then `H[0..8]`, one decimal token per line. -/
def encodeCalib (version : String) (c : Calib) : List String :=
  [version,
   intStr c.min_x, intStr c.max_x, intStr c.min_y, intStr c.max_y,
   intStr c.H.h1, intStr c.H.h2, intStr c.H.h3, intStr c.H.h4, intStr c.H.h5,
   intStr c.H.h6, intStr c.H.h7, intStr c.H.h8, intStr c.H.h9]

/-- What the restore branch of `Calibrator::do_calib_io` reads from the
file (calibrator.cpp lines 1062-1098): whether the version check warned,
and the parsed zone bounds and matrix coefficients. -/
structure LoadData where
  warned : Bool
  min_x : Int
  max_x : Int
  min_y : Int
  max_y : Int
  H : HMatrix
deriving DecidableEq, Repr

/-- The restore branch of `Calibrator::do_calib_io` (calibrator.cpp lines
1062-1100): read the version token (a mismatch with VERSION only warns),
then parse `min_x`, `max_x`, `min_y`, `max_y` and the nine matrix
coefficients; any missing or unparsable token is a failure. -/
def do_restore (lines : List String) : Option LoadData :=
  match lines with
  | v :: a1 :: a2 :: a3 :: a4 :: b1 :: b2 :: b3 :: b4 :: b5 :: b6 :: b7 :: b8 :: b9 :: _ => do
    let mnx ← parseInt a1
    let mxx ← parseInt a2
    let mny ← parseInt a3
    let mxy ← parseInt a4
    let h1 ← parseInt b1
    let h2 ← parseInt b2
    let h3 ← parseInt b3
    let h4 ← parseInt b4
    let h5 ← parseInt b5
    let h6 ← parseInt b6
    let h7 ← parseInt b7
    let h8 ← parseInt b8
    let h9 ← parseInt b9
    pure ⟨decide (v ≠ VERSION), mnx, mxx, mny, mxy, ⟨h1, h2, h3, h4, h5, h6, h7, h8, h9⟩⟩
  | _ => none

/-- The state update performed by a successful restore (calibrator.cpp
lines 1085-1110): the zone bounds and matrix are taken from the file and
the `zoned` flag is re-derived from the loaded bounds and the screen
geometry. -/
def do_restore_state (c : Calib) (lines : List String) : Option Calib :=
  match do_restore lines with
  | none => none
  | some r =>
    some { c with
      min_x := r.min_x, max_x := r.max_x, min_y := r.min_y, max_y := r.max_y,
      H := r.H,
      zoned := !(decide (r.min_x = 0 ∧ r.min_y = 0 ∧
        r.max_x = c.screen_width - 1 ∧ r.max_y = c.screen_height - 1)) }

/-- What the save branch of `Calibrator::do_calib_io` depends on: whether
`fopen(ofile, "w")` succeeds, and what `get_ebeam_calibration` reads back
from the driver's sysfs files (`none` when any read or parse fails). -/
structure SaveEnv where
  open_ok : Bool
  get_calib : Option Calib
deriving Repr

/-- The save branch of `Calibrator::do_calib_io` (calibrator.cpp lines
1032-1059), acting on the target file's contents: `fopen(ofile, "w")`
truncates the file at once; if it fails the file is untouched; if
`get_ebeam_calibration` then fails the handle is closed with the file
left truncated; otherwise the 14 encoded lines are written. -/
def do_save (env : SaveEnv) (file : Option (List String)) : Bool × Option (List String) :=
  if env.open_ok = false then (FAILURE, file)
  else
    match env.get_calib with
    | none => (FAILURE, some [])
    | some c => (SUCCESS, some (encodeCalib VERSION c))

/-- `Calibrator::compute_XCTM` (calibrator.cpp lines 1129-1147): the
row-major 3x3 array pushed as the X11 Coordinate Transformation Matrix
property; the `float` arithmetic is idealized over ℚ. -/
def compute_XCTM (c : Calib) : Fin 9 → ℚ :=
  ![((c.max_x - c.min_x + 1 : Int) : ℚ) / (c.screen_width : ℚ), 0,
    (c.min_x : ℚ) / (c.screen_width : ℚ),
    0, ((c.max_y - c.min_y + 1 : Int) : ℚ) / (c.screen_height : ℚ),
    (c.min_y : ℚ) / (c.screen_height : ℚ),
    0, 0, 1]

/-- `Calibrator::set_XCTM_to_identity` (calibrator.cpp lines 1149-1160),
used only by the reset operation `reset_evdev_calibration`. -/
def set_XCTM_to_identity : Fin 9 → ℚ := ![1, 0, 0, 0, 1, 0, 0, 0, 1]

/-- The Coordinate Transformation Matrix part of
`Calibrator::sync_evdev_calibration` (calibrator.cpp lines 922-944): the
property is set to `compute_XCTM` only when `zoned` holds; otherwise the
block is skipped and no matrix is emitted. -/
def sync_evdev_CTM (c : Calib) : Option (Fin 9 → ℚ) :=
  if c.zoned then some (compute_XCTM c) else none

/-- Rendering of the window-system matrix exactly as the spec words it:
`[[W/screenW, 0, minX/screenW], [0, H'/screenH, minY/screenH], [0, 0, 1]]`
with `W` and `H'` the zone's pixel extents. -/
def specXCTM (c : Calib) : Matrix (Fin 3) (Fin 3) ℚ :=
  !![((c.max_x - c.min_x + 1 : Int) : ℚ) / (c.screen_width : ℚ), 0,
      (c.min_x : ℚ) / (c.screen_width : ℚ);
     0, ((c.max_y - c.min_y + 1 : Int) : ℚ) / (c.screen_height : ℚ),
      (c.min_y : ℚ) / (c.screen_height : ℚ);
     0, 0, 1]

/-- Row-major flattening of a 3x3 matrix into the 9-element property
array X11 expects. -/
def flattenCTM (M : Matrix (Fin 3) (Fin 3) ℚ) : Fin 9 → ℚ :=
  fun i => M ⟨i.val / 3, by have := i.isLt; omega⟩ ⟨i.val % 3, by omega⟩

/-- Auxiliary: the conditions `test_H` checks for one tuple, as a proposition. -/
def testPointOk (H : HMatrix) (t : Tuple) : Prop :=
  testDenom H t.dev_X t.dev_Y ≠ 0 ∧
  testX H t.dev_X t.dev_Y = t.scr_x ∧ testY H t.dev_X t.dev_Y = t.scr_y

instance (H : HMatrix) (t : Tuple) : Decidable (testPointOk H t) := by
  unfold testPointOk; infer_instance

/-- C1 (amended): the replay validation `test_H` succeeds exactly when, for
every stored correspondence, the 64-bit denominator `h7*X + h8*Y + h9` is
nonzero and the quotients `(2*(h1*X + h2*Y + h3) + denom) / (2*denom)` and
`(2*(h4*X + h5*Y + h6) + denom) / (2*denom)` (signed 64-bit arithmetic,
truncate-toward-zero division), once truncated to a signed 32-bit `int` by
the C cast, equal the stored screen coordinates. -/
theorem test_H_success_iff (H : HMatrix) (ts : List Tuple) :
    test_H H ts = SUCCESS ↔ ∀ t ∈ ts, testPointOk H t := by
  induction ts with
  | nil => simp [test_H]
  | cons t ts ih =>
    simp only [test_H, List.mem_cons]
    by_cases hd : testDenom H t.dev_X t.dev_Y = 0
    · simp only [if_pos hd]
      constructor
      · intro h; exact absurd h (by simp [FAILURE, SUCCESS])
      · intro h; exact absurd (h t (Or.inl rfl)).1 (by simpa using hd)
    · simp only [if_neg hd]
      by_cases hm : testX H t.dev_X t.dev_Y ≠ t.scr_x ∨ testY H t.dev_X t.dev_Y ≠ t.scr_y
      · simp only [if_pos hm]
        constructor
        · intro h; exact absurd h (by simp [FAILURE, SUCCESS])
        · intro h
          rcases hm with hm | hm
          · exact absurd (h t (Or.inl rfl)).2.1 hm
          · exact absurd (h t (Or.inl rfl)).2.2 hm
      · simp only [if_neg hm]
        push_neg at hm
        rw [ih]
        constructor
        · rintro h u (rfl | hu)
          · exact ⟨hd, hm.1, hm.2⟩
          · exact h u hu
        · intro h u hu; exact h u (Or.inr hu)

/-- C1 (counterexample to the claim as stated): with
`H = (0, 0, 2^32, 0, 0, 0, 0, 0, 1)` and the four stored correspondences
all `(0, 0) -> (0, 0)`, the 64-bit quotient for x is `2^32`, which differs
from the stored screen coordinate `0`, so the claim's formula demands
failure; yet `test_H` casts the quotient to a 32-bit `int`, obtaining `0`,
and succeeds. -/
theorem test_H_int_cast_cex :
    test_H ⟨0, 0, 2 ^ 32, 0, 0, 0, 0, 0, 1⟩
        [⟨0, 0, 0, 0⟩, ⟨0, 0, 0, 0⟩, ⟨0, 0, 0, 0⟩, ⟨0, 0, 0, 0⟩] = SUCCESS ∧
    ¬ spec_test_H ⟨0, 0, 2 ^ 32, 0, 0, 0, 0, 0, 1⟩
        [⟨0, 0, 0, 0⟩, ⟨0, 0, 0, 0⟩, ⟨0, 0, 0, 0⟩, ⟨0, 0, 0, 0⟩] := by
  constructor
  · decide
  · intro h
    have := (h ⟨0, 0, 0, 0⟩ (by simp)).2.1
    revert this
    decide

/-- Auxiliary for C3: if the four device points are collinear then the
columns of the 8x8 system matrix are linearly dependent (the dependency
`a*col0 + b*col1 + c*col2 = 0` holds row by row), so its determinant
vanishes. -/
theorem buildA_det_zero {ts : List Tuple} (h4 : ts.length = 4)
    (hcol : CollinearDev ts) : (buildA ts).det = 0 := by
  obtain ⟨a, b, cc, hab, hline⟩ := hcol
  rw [← Matrix.exists_mulVec_eq_zero_iff]
  refine ⟨![a, b, cc, 0, 0, 0, 0, 0], ?_, ?_⟩
  · intro hv
    rcases hab with ha | hb
    · exact ha (by simpa using congr_fun hv 0)
    · exact hb (by simpa using congr_fun hv 1)
  · have key : ∀ k : Nat, k < 4 →
        a * ((ts.getD k default).dev_X : ℚ) + b * ((ts.getD k default).dev_Y : ℚ) + cc = 0 := by
      intro k hk
      apply hline
      have hk' : k < ts.length := by omega
      rw [List.getD_eq_getElem?_getD, List.getElem?_eq_getElem hk']
      exact List.getElem_mem hk'
    have k0 := key 0 (by norm_num)
    have k1 := key 1 (by norm_num)
    have k2 := key 2 (by norm_num)
    have k3 := key 3 (by norm_num)
    simp only [List.getD_eq_getElem?_getD] at k0 k1 k2 k3
    funext i
    fin_cases i <;>
      simp [Matrix.mulVec, Matrix.dotProduct, Fin.sum_univ_succ, buildA, evenRowQ, oddRowQ,
            List.getD_eq_getElem?_getD] <;>
      linarith [k0, k1, k2, k3]

/-- C3: with four collinear device points — or an otherwise degenerate
set, i.e. a singular system — the modelled GSL solve reports the
singularity, `find_H` surfaces the failure without writing any matrix,
and `finish` reports failure with the session state unchanged, having
attempted only the solve step. -/
theorem collinear_find_H_fails (env : FinishEnv) (c : Calib)
    (h4 : c.tuples.length = 4)
    (hdeg : CollinearDev c.tuples ∨ (buildA c.tuples).det = 0) :
    find_H c.precision c.tuples = none ∧ finish env c = (FAILURE, c, [Step.findH]) := by
  have hdet : (buildA c.tuples).det = 0 := hdeg.elim (buildA_det_zero h4) id
  have hf : find_H c.precision c.tuples = none := by
    unfold find_H gslLUSolve
    rw [if_pos hdet]
  refine ⟨hf, ?_⟩
  unfold finish
  rw [if_neg (by simp [NUM_POINTS, h4])]
  rw [hf]

/-- C3 witness: the four device points (0,0), (1,1), (2,2), (3,3) lie on
the diagonal, so the solve fails and the session reports failure with its
state unchanged. -/
theorem collinear_find_H_fails_witness :
    find_H 12 [⟨0, 0, 0, 0⟩, ⟨1, 1, 0, 0⟩, ⟨2, 2, 0, 0⟩, ⟨3, 3, 0, 0⟩] = none ∧
    finish ⟨true, true⟩
        ⟨12, 16, [⟨0, 0, 0, 0⟩, ⟨1, 1, 0, 0⟩, ⟨2, 2, 0, 0⟩, ⟨3, 3, 0, 0⟩],
         ⟨0, 0, 0, 0, 0, 0, 0, 0, 0⟩, false, 0, 0, 799, 599, 800, 600⟩ =
      (FAILURE,
       ⟨12, 16, [⟨0, 0, 0, 0⟩, ⟨1, 1, 0, 0⟩, ⟨2, 2, 0, 0⟩, ⟨3, 3, 0, 0⟩],
        ⟨0, 0, 0, 0, 0, 0, 0, 0, 0⟩, false, 0, 0, 799, 599, 800, 600⟩,
       [Step.findH]) :=
  collinear_find_H_fails ⟨true, true⟩
    ⟨12, 16, [⟨0, 0, 0, 0⟩, ⟨1, 1, 0, 0⟩, ⟨2, 2, 0, 0⟩, ⟨3, 3, 0, 0⟩],
     ⟨0, 0, 0, 0, 0, 0, 0, 0, 0⟩, false, 0, 0, 799, 599, 800, 600⟩
    (by decide)
    (Or.inl ⟨1, -1, 0, Or.inl one_ne_zero, by
      intro t ht
      simp only [List.mem_cons, List.not_mem_nil, or_false] at ht
      rcases ht with rfl | rfl | rfl | rfl <;> norm_num⟩)

/-- C7: whenever the solve-and-quantize step produces a matrix, its ninth
coefficient (the (3,3) element) is exactly the scale factor
`10^precision`; it is assigned, never solved for. -/
theorem find_H_h9_scale (P : Nat) (ts : List Tuple) :
    (find_H P ts).elim True (fun M => M.h9 = (10 : Int) ^ P) := by
  unfold find_H
  cases gslLUSolve (buildA ts) (buildB ts) <;> simp

/-- C10: if the number of stored correspondences differs from 4, `finish`
fails immediately: the session state (matrix and tuples included) is
returned unchanged and no solve, validate or transfer step is attempted. -/
theorem finish_not_four_points (env : FinishEnv) (c : Calib)
    (h : c.tuples.length ≠ 4) : finish env c = (FAILURE, c, []) := by
  unfold finish NUM_POINTS
  rw [if_pos h]

/-- C10 witness: with an empty correspondence set, `finish` fails and
changes nothing. -/
theorem finish_not_four_points_witness :
    finish ⟨true, true⟩
        ⟨12, 16, [], ⟨0, 0, 0, 0, 0, 0, 0, 0, 0⟩, false, 0, 0, 799, 599, 800, 600⟩ =
      (FAILURE, ⟨12, 16, [], ⟨0, 0, 0, 0, 0, 0, 0, 0, 0⟩, false, 0, 0, 799, 599, 800, 600⟩,
       []) :=
  finish_not_four_points ⟨true, true⟩
    ⟨12, 16, [], ⟨0, 0, 0, 0, 0, 0, 0, 0, 0⟩, false, 0, 0, 799, 599, 800, 600⟩
    (by decide)

/-- C4: with a configured positive threshold, in a collecting state, a
click whose device point lies within the threshold of some accepted point
(per axis) is rejected with the stored tuples unchanged; any other click
is appended and the count grows by exactly one. -/
theorem add_click_debounce (c : Calib) (X Y x y : Int)
    (hthr : 0 < c.threshold_doubleclick) (hlen : c.tuples.length < 4) :
    ((∃ t ∈ c.tuples, |X - t.dev_X| ≤ c.threshold_doubleclick ∧
        |Y - t.dev_Y| ≤ c.threshold_doubleclick) →
      add_click c X Y x y = (FAILURE, c)) ∧
    ((∀ t ∈ c.tuples, ¬(|X - t.dev_X| ≤ c.threshold_doubleclick ∧
        |Y - t.dev_Y| ≤ c.threshold_doubleclick)) →
      add_click c X Y x y = (SUCCESS, { c with tuples := c.tuples ++ [⟨X, Y, x, y⟩] }) ∧
      (add_click c X Y x y).2.tuples.length = c.tuples.length + 1) := by
  constructor
  · rintro ⟨t, ht, habs⟩
    have hpos : 0 < c.tuples.length := List.length_pos.mpr (List.ne_nil_of_mem ht)
    have hdup : isDoubleClick c.threshold_doubleclick X Y c.tuples = true := by
      simp only [isDoubleClick, List.any_eq_true, decide_eq_true_eq]
      exact ⟨t, ht, habs⟩
    rw [add_click, if_pos ⟨hthr, hpos⟩, if_pos hdup]
  · intro hno
    have hdup : isDoubleClick c.threshold_doubleclick X Y c.tuples = false := by
      simp only [isDoubleClick, List.any_eq_false, decide_eq_true_eq]
      exact hno
    by_cases hpos : 0 < c.tuples.length
    · rw [add_click, if_pos ⟨hthr, hpos⟩, if_neg (by simp [hdup])]
      simp
    · rw [add_click, if_neg (by intro h; exact hpos h.2)]
      simp

/-- C4 witness: with threshold 16 and an accepted click at device (100,
100), a click at (115, 115) (within +-15) is rejected and nothing
changes, while a click at (117, 117) (beyond +-16) is accepted and the
count goes from 1 to 2. -/
theorem add_click_debounce_witness :
    add_click ⟨12, 16, [⟨100, 100, 7, 7⟩], ⟨0, 0, 0, 0, 0, 0, 0, 0, 0⟩,
        false, 0, 0, 799, 599, 800, 600⟩ 115 115 0 0 =
      (FAILURE, ⟨12, 16, [⟨100, 100, 7, 7⟩], ⟨0, 0, 0, 0, 0, 0, 0, 0, 0⟩,
        false, 0, 0, 799, 599, 800, 600⟩) ∧
    add_click ⟨12, 16, [⟨100, 100, 7, 7⟩], ⟨0, 0, 0, 0, 0, 0, 0, 0, 0⟩,
        false, 0, 0, 799, 599, 800, 600⟩ 117 117 5 5 =
      (SUCCESS, ⟨12, 16, [⟨100, 100, 7, 7⟩, ⟨117, 117, 5, 5⟩], ⟨0, 0, 0, 0, 0, 0, 0, 0, 0⟩,
        false, 0, 0, 799, 599, 800, 600⟩) :=
  ⟨(add_click_debounce ⟨12, 16, [⟨100, 100, 7, 7⟩], ⟨0, 0, 0, 0, 0, 0, 0, 0, 0⟩,
        false, 0, 0, 799, 599, 800, 600⟩ 115 115 0 0 (by decide) (by decide)).1
      ⟨⟨100, 100, 7, 7⟩, by simp, by decide⟩,
   ((add_click_debounce ⟨12, 16, [⟨100, 100, 7, 7⟩], ⟨0, 0, 0, 0, 0, 0, 0, 0, 0⟩,
        false, 0, 0, 799, 599, 800, 600⟩ 117 117 5 5 (by decide) (by decide)).2
      (by decide)).1⟩

/-- Auxiliary: the fuelled digit extraction agrees with `Nat.digits` once
the fuel covers the number. -/
theorem natDigitsAux_eq (fuel : Nat) :
    ∀ n : Nat, n ≤ fuel → natDigitsAux fuel n = Nat.digits 10 n := by
  induction fuel with
  | zero =>
    intro n hn
    interval_cases n
    simp [natDigitsAux]
  | succ fuel ih =>
    intro n hn
    match n with
    | 0 => simp [natDigitsAux]
    | m + 1 =>
      have hdiv : (m + 1) / 10 ≤ fuel := by
        have := Nat.div_lt_self (Nat.succ_pos m) (by norm_num : 1 < 10)
        omega
      rw [natDigitsAux, ih _ hdiv, ← Nat.digits_def' (by norm_num : (1 : Nat) < 10)
        (Nat.succ_pos m)]

/-- Auxiliary: `natDigits` computes `Nat.digits 10`. -/
theorem natDigits_eq (n : Nat) : natDigits n = Nat.digits 10 n :=
  natDigitsAux_eq n n le_rfl

/-- Auxiliary: reading a digit character back gives the digit. -/
theorem charVal_digitChar : ∀ d < 10, charVal (digitChar d) = d := by decide

/-- Auxiliary: the characters produced for digits are digit characters. -/
theorem isDigitChar_digitChar : ∀ d < 10, isDigitChar (digitChar d) = true := by decide

/-- Auxiliary: parsing back the decimal text of a natural number yields
the number. -/
theorem parseNat_natStr (n : Nat) : parseNat (natStr n) = some n := by
  rcases Nat.eq_zero_or_pos n with rfl | hn
  · decide
  · have hne : n ≠ 0 := hn.ne'
    have hd : ∀ d ∈ Nat.digits 10 n, d < 10 := fun d hdm =>
      Nat.digits_lt_base (by norm_num) hdm
    have hLne : Nat.digits 10 n ≠ [] := Nat.digits_ne_nil_iff_ne_zero.mpr hne
    rw [natStr, if_neg hne, natDigits_eq, parseNat, if_pos ?_]
    · congr 1
      rw [List.map_map]
      have hmap : (Nat.digits 10 n).reverse.map (charVal ∘ digitChar) =
          (Nat.digits 10 n).reverse.map id := by
        apply List.map_congr_left
        intro d hdm
        exact charVal_digitChar d (hd d (List.mem_reverse.mp hdm))
      rw [hmap, List.map_id, List.reverse_reverse, Nat.ofDigits_digits]
    · constructor
      · simp [hLne]
      · rw [List.all_eq_true]
        intro ch hch
        obtain ⟨d, hdm, rfl⟩ := List.mem_map.mp hch
        exact isDigitChar_digitChar d (hd d (List.mem_reverse.mp hdm))

/-- Auxiliary: the decimal text of a natural number is a nonempty string
of digit characters. -/
theorem natStr_cond (n : Nat) : natStr n ≠ [] ∧ (natStr n).all isDigitChar := by
  by_cases hc : natStr n ≠ [] ∧ (natStr n).all isDigitChar
  · exact hc
  · have h := parseNat_natStr n
    rw [parseNat, if_neg hc] at h
    exact absurd h (by simp)

/-- Auxiliary: parsing back the decimal text of an integer yields the
integer: the `%d`/`%lld` print/scan pair round-trips. -/
theorem parseInt_intStr (z : Int) : parseInt (intStr z) = some z := by
  rcases lt_or_le z 0 with hz | hz
  · rw [intStr, if_pos hz]
    have hred : parseInt (String.mk ('-' :: natStr z.natAbs)) =
        (parseNat (natStr z.natAbs)).map fun n => -(n : Int) := rfl
    rw [hred, parseNat_natStr]
    simp [abs_of_neg hz]
  · rw [intStr, if_neg (not_lt.mpr hz)]
    obtain ⟨hne, hall⟩ := natStr_cond z.natAbs
    obtain ⟨c0, cs, hcons⟩ : ∃ c0 cs, natStr z.natAbs = c0 :: cs := by
      cases h : natStr z.natAbs with
      | nil => exact absurd h hne
      | cons a l => exact ⟨a, l, rfl⟩
    have hc0 : isDigitChar c0 = true := by
      rw [hcons, List.all_cons] at hall
      exact (Bool.and_eq_true_iff.mp hall).1
    have hc0ne : c0 ≠ '-' := by
      intro hc
      subst hc
      simp [isDigitChar] at hc0
    rw [hcons]
    have hred : parseInt (String.mk (c0 :: cs)) =
        if c0 = '-' then (parseNat cs).map (fun n => -(n : Int))
        else (parseNat (c0 :: cs)).map fun n => (n : Int) := rfl
    rw [hred, if_neg hc0ne, ← hcons, parseNat_natStr]
    simp [abs_of_nonneg hz]

/-- C5: encoding a calibration snapshot produces exactly 14 lines, in the
order version tag, `min_x`, `max_x`, `min_y`, `max_y`, `h1..h9`, and
decoding those lines back succeeds for every tag, recovering the zone
bounds and matrix coefficients field for field; a tag differing from the
running VERSION only sets the warning flag and changes nothing else. -/
theorem save_restore_roundtrip (v : String) (c : Calib) :
    (encodeCalib v c).length = 14 ∧
    do_restore (encodeCalib v c) =
      some ⟨decide (v ≠ VERSION), c.min_x, c.max_x, c.min_y, c.max_y, c.H⟩ := by
  refine ⟨rfl, ?_⟩
  simp [do_restore, encodeCalib, parseInt_intStr]

/-- C8: after every successful restore, the `zoned` flag is false exactly
when the loaded bounds cover the full screen, the screen geometry being
unchanged by the load. -/
theorem restore_zoned_iff (c : Calib) (lines : List String) (c' : Calib)
    (h : do_restore_state c lines = some c') :
    c'.screen_width = c.screen_width ∧ c'.screen_height = c.screen_height ∧
    (c'.zoned = false ↔ (c'.min_x = 0 ∧ c'.min_y = 0 ∧
      c'.max_x = c.screen_width - 1 ∧ c'.max_y = c.screen_height - 1)) := by
  unfold do_restore_state at h
  cases hr : do_restore lines with
  | none => rw [hr] at h; exact absurd h (by simp)
  | some r =>
    rw [hr] at h
    have h' := Option.some.inj h
    subst h'
    refine ⟨rfl, rfl, ?_⟩
    simp

/-- C8 witness: restoring a file holding bounds 0, 799, 0, 599 on an
800x600 screen clears the `zoned` flag. -/
theorem restore_zoned_iff_witness :
    (⟨12, 16, [], ⟨5, 0, 0, 0, 5, 0, 0, 0, 1⟩, false, 0, 0, 799, 599, 800, 600⟩ :
        Calib).screen_width = (800 : Int) ∧
    (⟨12, 16, [], ⟨5, 0, 0, 0, 5, 0, 0, 0, 1⟩, false, 0, 0, 799, 599, 800, 600⟩ :
        Calib).screen_height = (600 : Int) ∧
    ((⟨12, 16, [], ⟨5, 0, 0, 0, 5, 0, 0, 0, 1⟩, false, 0, 0, 799, 599, 800, 600⟩ :
        Calib).zoned = false ↔
      ((⟨12, 16, [], ⟨5, 0, 0, 0, 5, 0, 0, 0, 1⟩, false, 0, 0, 799, 599, 800, 600⟩ :
          Calib).min_x = 0 ∧
       (⟨12, 16, [], ⟨5, 0, 0, 0, 5, 0, 0, 0, 1⟩, false, 0, 0, 799, 599, 800, 600⟩ :
          Calib).min_y = 0 ∧
       (⟨12, 16, [], ⟨5, 0, 0, 0, 5, 0, 0, 0, 1⟩, false, 0, 0, 799, 599, 800, 600⟩ :
          Calib).max_x = (800 : Int) - 1 ∧
       (⟨12, 16, [], ⟨5, 0, 0, 0, 5, 0, 0, 0, 1⟩, false, 0, 0, 799, 599, 800, 600⟩ :
          Calib).max_y = (600 : Int) - 1)) :=
  restore_zoned_iff
    ⟨12, 16, [], ⟨9, 9, 9, 9, 9, 9, 9, 9, 9⟩, true, 3, 3, 7, 7, 800, 600⟩
    ["1.0", "0", "799", "0", "599", "5", "0", "0", "0", "5", "0", "0", "0", "1"]
    ⟨12, 16, [], ⟨5, 0, 0, 0, 5, 0, 0, 0, 1⟩, false, 0, 0, 799, 599, 800, 600⟩
    (by decide)

/-- C6 (counterexample to the claim as stated): when the target file
opens but reading back the current calibration fails, the save path has
already truncated the target: the file is neither left untouched nor
holds the complete 14-line text — it is left empty. -/
theorem do_save_truncates_cex :
    (do_save ⟨true, none⟩ (some ["stale"])).1 = FAILURE ∧
    (do_save ⟨true, none⟩ (some ["stale"])).2 ≠ some ["stale"] ∧
    (do_save ⟨true, none⟩ (some ["stale"])).2 = some [] ∧
    ((do_save ⟨true, none⟩ (some ["stale"])).2.getD []).length ≠ 14 := by
  refine ⟨rfl, ?_, rfl, by decide⟩
  simp [do_save]

/-- C6 (amended): the save path is not atomic.  If the open fails the
target is untouched; once opened the target is truncated at once, so a
failed calibration read-back leaves it empty; only the success path
writes the complete 14-line text. -/
theorem do_save_characterization (env : SaveEnv) (file : Option (List String)) :
    ((do_save env file).1 = SUCCESS →
      ∃ c, env.get_calib = some c ∧
        (do_save env file).2 = some (encodeCalib VERSION c) ∧
        (encodeCalib VERSION c).length = 14) ∧
    (env.open_ok = false → (do_save env file).1 = FAILURE ∧ (do_save env file).2 = file) ∧
    (env.open_ok = true → env.get_calib = none →
      (do_save env file).1 = FAILURE ∧ (do_save env file).2 = some []) := by
  obtain ⟨o, g⟩ := env
  cases o <;> cases g <;> simp [do_save, SUCCESS, FAILURE, encodeCalib]

/-- C9 (amended): when the zone is restricted, the synchronization toward
the window system emits exactly the row-major flattening of the spec's
3x3 matrix `[[W/screenW, 0, minX/screenW], [0, H'/screenH, minY/screenH],
[0, 0, 1]]`; when the zone is the full screen, no coordinate-transform
matrix is emitted at all. -/
theorem sync_evdev_CTM_spec (c : Calib) :
    (c.zoned = true → sync_evdev_CTM c = some (flattenCTM (specXCTM c))) ∧
    (c.zoned = false → sync_evdev_CTM c = none) := by
  constructor
  · intro hz
    rw [sync_evdev_CTM, if_pos hz]
    congr 1
    funext i
    fin_cases i <;> rfl
  · intro hz
    rw [sync_evdev_CTM, if_neg (by simp [hz])]

/-- C9 witness: a zoned state emits the flattened spec matrix; an unzoned
state emits nothing. -/
theorem sync_evdev_CTM_spec_witness :
    sync_evdev_CTM ⟨12, 16, [], ⟨0, 0, 0, 0, 0, 0, 0, 0, 0⟩, true,
        100, 100, 899, 899, 800, 600⟩ =
      some (flattenCTM (specXCTM ⟨12, 16, [], ⟨0, 0, 0, 0, 0, 0, 0, 0, 0⟩, true,
        100, 100, 899, 899, 800, 600⟩)) ∧
    sync_evdev_CTM ⟨12, 16, [], ⟨0, 0, 0, 0, 0, 0, 0, 0, 0⟩, false,
        0, 0, 799, 599, 800, 600⟩ = none :=
  ⟨(sync_evdev_CTM_spec ⟨12, 16, [], ⟨0, 0, 0, 0, 0, 0, 0, 0, 0⟩, true,
        100, 100, 899, 899, 800, 600⟩).1 rfl,
   (sync_evdev_CTM_spec ⟨12, 16, [], ⟨0, 0, 0, 0, 0, 0, 0, 0, 0⟩, false,
        0, 0, 799, 599, 800, 600⟩).2 rfl⟩

/-- C9 (counterexample to the claim as stated): in a full-screen (unzoned)
state, the synchronization emits no matrix, not the identity matrix the
claim describes. -/
theorem sync_evdev_CTM_not_identity_cex :
    sync_evdev_CTM ⟨12, 16, [], ⟨0, 0, 0, 0, 0, 0, 0, 0, 0⟩, false,
        0, 0, 799, 599, 800, 600⟩ = none ∧
    (none : Option (Fin 9 → ℚ)) ≠ some set_XCTM_to_identity := by
  exact ⟨rfl, by simp⟩

/-- C2: the fixed-point quantization rounds half away from zero: for a
nonnegative coefficient it is the floor of `v * 10^P + 1/2`, and for a
negative coefficient the ceiling of `v * 10^P - 1/2`. -/
theorem quantize_round_half_away (v : ℚ) (P : Nat) :
    (0 ≤ v → quantize v P = ⌊v * 10 ^ P + 1 / 2⌋) ∧
    (v < 0 → quantize v P = ⌈v * 10 ^ P - 1 / 2⌉) := by
  constructor
  · intro hv
    have hx : (0 : ℚ) ≤ v * 10 ^ P + 1 / 2 := by positivity
    rw [quantize, if_pos hv, qtrunc, if_pos hx]
  · intro hv
    have hneg : ¬ (0 : ℚ) ≤ v := not_le.mpr hv
    have hx : ¬ (0 : ℚ) ≤ v * 10 ^ P - 1 / 2 := by
      have h1 : v * 10 ^ P < 0 :=
        mul_neg_of_neg_of_pos hv (by positivity)
      push_neg
      linarith
    rw [quantize, if_neg hneg, qtrunc, if_neg hx]

end Ebeam
